import Mathlib

/-!
Verification of the riv-editor core engine (`src/renderer/types/index.ts`)
against its natural-language specification.

The development shallowly embeds the engine:
* JavaScript numbers are modelled as real numbers (`ℝ`) in the animation
  engine (the `elastic` easing uses `sin` and `2^x`, which forces `ℝ`),
  and as rationals (`ℚ`) in the state-machine parameter values, where the
  code only compares values and decidability matters.
* Dynamically typed JavaScript values (keyframe values, shape property
  trees) are modelled by the inductive type `JSVal`; JavaScript objects
  become association lists in insertion order, which is the enumeration
  order of both `for ... in` and `Map.forEach` for string keys.
* Code that can throw (property assignment on a primitive in strict mode)
  returns an `Option`, with `none` marking a thrown `TypeError`.
-/

namespace RivEditor

/-- A dynamically typed JavaScript value: number, string, boolean, or a
plain object whose fields are kept in insertion order. -/
inductive JSVal where
  | num (n : ℝ)
  | str (s : String)
  | bool (b : Bool)
  | obj (fields : List (String × JSVal))

/-- Field lookup in a JavaScript object: the first binding of the key
(JavaScript objects have unique keys; association lists generalise). -/
def lookupKey (k : String) : List (String × α) → Option α
  | [] => none
  | (k', v) :: rest => if k' = k then some v else lookupKey k rest

/-- Field assignment `o[k] = v` on a JavaScript object: replace the first
binding of `k` if present, otherwise append a new binding (JavaScript
preserves the insertion position of an existing key). -/
def setKey (k : String) (v : α) : List (String × α) → List (String × α)
  | [] => [(k, v)]
  | (k', v') :: rest => if k' = k then (k, v) :: rest else (k', v') :: setKey k v rest

theorem lookupKey_setKey_self (k : String) (v : α) (l : List (String × α)) :
    lookupKey k (setKey k v l) = some v := by
  induction l with
  | nil => simp [setKey, lookupKey]
  | cons hd tl ih =>
    obtain ⟨k', v'⟩ := hd
    by_cases h : k' = k
    · simp [setKey, lookupKey, h]
    · simp [setKey, lookupKey, h, ih]

theorem lookupKey_setKey_ne (k k' : String) (v : α) (l : List (String × α))
    (h : k' ≠ k) : lookupKey k' (setKey k v l) = lookupKey k' l := by
  have h' : k ≠ k' := Ne.symm h
  induction l with
  | nil => simp [setKey, lookupKey, h']
  | cons hd tl ih =>
    obtain ⟨k₀, v₀⟩ := hd
    by_cases h0 : k₀ = k
    · subst h0
      simp [setKey, lookupKey, h']
    · simp [setKey, lookupKey, h0, ih]

-- ========== Animation engine (`AnimationTrack`, `Animation`) ==========

/-- The `EasingFunction` union type: a named curve or a cubic-bezier
descriptor. -/
inductive Easing where
  | linear
  | easeIn
  | easeOut
  | easeInOut
  | bounce
  | elastic
  | bezier (p : ℝ × ℝ × ℝ × ℝ)

/-- A keyframe: time (ms), a dynamically typed value, and an easing
selector. -/
structure KeyframeM where
  time : ℝ
  value : JSVal
  easing : Easing

/-- An animation track: a dotted property path and its keyframe list
(kept ordered by time by `addKeyframe`). -/
structure AnimationTrackM where
  property : String
  keyframes : List KeyframeM

/-- Placeholder keyframe used as the (never hit) default of list
indexing; the embedded loops only index in bounds. -/
def dkf : KeyframeM := ⟨0, .num 0, .linear⟩

section
open Classical

/-- `AnimationTrack.applyEasing`, transcribed branch by branch.  The
source mutates `t` inside the bounce branches (`(t -= c) * t`); here the
shifted value is bound once and squared. -/
noncomputable def applyEasing (t : ℝ) (easing : Easing) : ℝ :=
  match easing with
  | .linear => t
  | .easeIn => t * t
  | .easeOut => t * (2 - t)
  | .easeInOut => if t < 0.5 then 2 * t * t else -1 + (4 - 2 * t) * t
  | .bounce =>
      if t < 1 / 2.75 then 7.5625 * t * t
      else if t < 2 / 2.75 then
        let t' := t - 1.5 / 2.75
        7.5625 * t' * t' + 0.75
      else if t < 2.5 / 2.75 then
        let t' := t - 2.25 / 2.75
        7.5625 * t' * t' + 0.9375
      else
        let t' := t - 2.625 / 2.75
        7.5625 * t' * t' + 0.984375
  | .elastic => (2 : ℝ) ^ (-10 * t) * Real.sin ((t - 0.075) * (2 * Real.pi) / 0.3) + 1
  | .bezier _ => t

/-- Field-wise blend of two objects, as in `AnimationTrack.interpolate`:
iterate the `from` object's fields and emit only those that are numbers
in both operands; every other field is dropped (the result object starts
empty and only receives the blended numeric keys). -/
def objBlend (ff tf : List (String × JSVal)) (progress : ℝ) :
    List (String × JSVal) :=
  match ff with
  | [] => []
  | (k, v) :: rest =>
      match v, lookupKey k tf with
      | .num a, some (.num b) =>
          (k, .num (a + (b - a) * progress)) :: objBlend rest tf progress
      | _, _ => objBlend rest tf progress

/-- `AnimationTrack.interpolate`: numeric values blend linearly, objects
blend field-wise via `objBlend`, anything else switches discretely at
`progress < 0.5`. -/
noncomputable def interpolate (a b : JSVal) (progress : ℝ) : JSVal :=
  match a, b with
  | .num x, .num y => .num (x + (y - x) * progress)
  | .obj ff, .obj tf => .obj (objBlend ff tf progress)
  | x, y => if progress < 0.5 then x else y

/-- The index-search loop of `getValueAtTime`: walk the keyframes from
index `n` with the running `beforeIndex` accumulator `acc`; record the
last index whose time is `≤ time`, and stop at the first index whose
time is `≥ time` (the source's `break`).  Returns
`(beforeIndex?, afterIndex?)`. -/
noncomputable def findIdx (time : ℝ) : List KeyframeM → ℕ → Option ℕ →
    Option ℕ × Option ℕ
  | [], _, acc => (acc, none)
  | kf :: rest, n, acc =>
      let acc' := if kf.time ≤ time then some n else acc
      if time ≤ kf.time then (acc', some n)
      else findIdx time rest (n + 1) acc'

/-- `AnimationTrack.getValueAtTime`: empty track gives `null`; time
before the first keyframe clamps to the first value, after the last to
the last value, an exact hit returns that keyframe's value, and in
between the value is interpolated with the **before** keyframe's easing
applied to the linear progress. -/
noncomputable def getValueAtTime (track : AnimationTrackM) (time : ℝ) :
    Option JSVal :=
  match track.keyframes with
  | [] => none
  | k0 :: rest =>
      let kfs := k0 :: rest
      match findIdx time kfs 0 none with
      | (none, _) => some k0.value
      | (some _, none) => some (kfs.getLastD dkf).value
      | (some bi, some ai) =>
          if bi = ai then some ((kfs.getD bi dkf).value)
          else
            let before := kfs.getD bi dkf
            let after := kfs.getD ai dkf
            let progress := (time - before.time) / (after.time - before.time)
            some (interpolate before.value after.value
              (applyEasing progress before.easing))

end

/-- Running the scan loop past a block of keyframes that are all strictly
earlier than the query time: no element stops the loop, and `beforeIndex`
ends at the last index of the block (or stays at `acc` if the block is
empty). -/
theorem findIdx_skip (t : ℝ) (l₁ l₂ : List KeyframeM) (n : ℕ) (acc : Option ℕ)
    (h : ∀ kf ∈ l₁, kf.time < t) :
    findIdx t (l₁ ++ l₂) n acc =
      findIdx t l₂ (n + l₁.length)
        (if l₁.isEmpty then acc else some (n + l₁.length - 1)) := by
  induction l₁ generalizing n acc with
  | nil => simp
  | cons kf l₁' ih =>
    have hkf : kf.time < t := h kf (by simp)
    have hrest : ∀ k ∈ l₁', k.time < t := fun k hk => h k (by simp [hk])
    simp only [List.cons_append, findIdx, List.append_eq]
    rw [if_pos hkf.le, if_neg (not_le.mpr hkf), ih _ _ hrest]
    rcases l₁' with _ | ⟨q, l₁''⟩
    · simp
    · simp only [List.length_cons, List.isEmpty_cons]
      have h1 : n + 1 + (l₁''.length + 1) = n + (l₁''.length + 1 + 1) := by omega
      have h2 : n + 1 + (l₁''.length + 1) - 1 = n + (l₁''.length + 1 + 1) - 1 := by omega
      simp [h1, h2]

theorem getD_append_length (l : List α) (a : α) (l₂ : List α) (d : α) :
    (l ++ a :: l₂).getD l.length d = a := by
  induction l with
  | nil => simp
  | cons x xs ih => simpa using ih

theorem getLastD_append_single (l : List α) (a : α) :
    ∀ d, (l ++ [a]).getLastD d = a := by
  induction l with
  | nil => intro d; rfl
  | cons x xs ih =>
    intro d
    rw [List.cons_append, List.getLastD_cons]
    exact ih x

/-- CLAIM C2 (confirmed).  Clamping behaviour of
`AnimationTrack.getValueAtTime`: an empty track yields no value (`null`);
a time at or before the first keyframe's time yields exactly the first
keyframe's value; a time at or after the last keyframe's time (with every
earlier keyframe strictly before the query time, which is how an
ordered-by-time track looks) yields exactly the last keyframe's value.
No extrapolation happens at either boundary. -/
theorem C2_clamping (tr : AnimationTrackM) (t : ℝ) :
    (tr.keyframes = [] → getValueAtTime tr t = none)
    ∧ (∀ k0 l, tr.keyframes = k0 :: l → t ≤ k0.time →
        getValueAtTime tr t = some k0.value)
    ∧ (∀ l' kl, tr.keyframes = l' ++ [kl] → (∀ kf ∈ l', kf.time < t) →
        kl.time ≤ t → getValueAtTime tr t = some kl.value) := by
  refine ⟨fun h => by simp [getValueAtTime, h], ?_, ?_⟩
  · intro k0 l h ht
    simp only [getValueAtTime, h, findIdx]
    by_cases hle : k0.time ≤ t
    · rw [if_pos hle, if_pos ht]
      simp [List.getD]
    · rw [if_neg hle, if_pos ht]
  · intro l' kl h hlt hle
    rcases l' with _ | ⟨p, l''⟩
    · simp only [List.nil_append] at h
      simp only [getValueAtTime, h, findIdx]
      rw [if_pos hle]
      by_cases heq : t ≤ kl.time
      · rw [if_pos heq]
        simp [List.getD]
      · rw [if_neg heq]
        simp [List.getLastD]
    · simp only [List.cons_append] at h
      simp only [getValueAtTime, h]
      have hskip := findIdx_skip t (p :: l'') [kl] 0 none hlt
      rw [List.cons_append] at hskip
      rw [hskip]
      simp only [List.length_cons, List.isEmpty_cons, Bool.false_eq_true,
        if_neg (by simp : ¬((p :: l'').isEmpty = true)), Nat.zero_add, findIdx, if_pos hle]
      by_cases heq : t ≤ kl.time
      · rw [if_pos heq]
        have hne : l''.length + 1 - 1 = l''.length := by omega
        have hgd : (p :: (l'' ++ [kl])).getD (l''.length + 1) dkf = kl := by
          have h0 := getD_append_length (p :: l'') kl [] dkf
          rw [show (p :: l'') ++ kl :: [] = p :: (l'' ++ [kl]) by simp,
            List.length_cons] at h0
          exact h0
        simp [hgd]
      · rw [if_neg heq]
        have hgl : (p :: (l'' ++ [kl])).getLast? = some kl := by
          rw [show p :: (l'' ++ [kl]) = (p :: l'') ++ [kl] by simp]
          exact List.getLast?_concat _
        simp [List.getLastD, hgl]

/-- When the keyframes decompose as `pre ++ b :: a :: post` with every
keyframe of `pre ++ [b]` strictly before the query time and `a` strictly
after it, the scan finds exactly the surrounding pair `(b, a)` and the
value is interpolated with `b`'s easing applied to the linear progress. -/
theorem bracket_eval (tr : AnimationTrackM) (t : ℝ) (pre : List KeyframeM)
    (b a : KeyframeM) (post : List KeyframeM)
    (h : tr.keyframes = pre ++ b :: a :: post)
    (hpre : ∀ kf ∈ pre, kf.time < t) (hb : b.time < t) (ha : t < a.time) :
    getValueAtTime tr t = some (interpolate b.value a.value
      (applyEasing ((t - b.time) / (a.time - b.time)) b.easing)) := by
  have hall : ∀ kf ∈ pre ++ [b], kf.time < t := by
    intro kf hkf
    rcases List.mem_append.1 hkf with hk | hk
    · exact hpre kf hk
    · simp only [List.mem_singleton] at hk
      subst hk
      exact hb
  have hskip := findIdx_skip t (pre ++ [b]) (a :: post) 0 none hall
  rw [show (pre ++ [b]) ++ a :: post = pre ++ b :: a :: post by simp] at hskip
  have hres : findIdx t (pre ++ b :: a :: post) 0 none
      = (some pre.length, some (pre.length + 1)) := by
    rw [hskip]
    rw [if_neg (by simp : ¬((pre ++ [b]).isEmpty = true))]
    simp only [findIdx, List.length_append, List.length_cons, List.length_nil,
      Nat.zero_add]
    rw [if_neg (not_le.mpr ha), if_pos ha.le]
    have h1 : pre.length + 0 + 1 - 1 = pre.length := by omega
    have h2 : pre.length + 0 + 1 = pre.length + 1 := by omega
    rw [h1, h2]
  rcases pre with _ | ⟨p, pre'⟩
  · simp only [List.nil_append] at h hres
    simp only [getValueAtTime, h, hres, List.length_nil]
    rw [if_neg (by omega : ¬(0 = 0 + 1))]
    simp [List.getD]
  · simp only [List.cons_append] at h
    rw [show (p :: pre').length = pre'.length + 1 from rfl] at hres
    simp only [List.cons_append] at hres
    simp only [getValueAtTime, h, hres]
    rw [if_neg (by omega : ¬(pre'.length + 1 = pre'.length + 1 + 1))]
    have hgb : (p :: (pre' ++ b :: a :: post)).getD (pre'.length + 1) dkf = b := by
      rw [List.getD_cons_succ]
      exact getD_append_length pre' b (a :: post) dkf
    have hga : (p :: (pre' ++ b :: a :: post)).getD (pre'.length + 1 + 1) dkf = a := by
      rw [List.getD_cons_succ]
      rw [show pre' ++ b :: a :: post = (pre' ++ [b]) ++ a :: post by simp]
      rw [show pre'.length + 1 = (pre' ++ [b]).length by simp]
      exact getD_append_length (pre' ++ [b]) a post dkf
    rw [hgb, hga]

/-- CLAIM C1 (corrected).  `getValueAtTime` resolves a strictly bracketed
time by computing the linear progress `p = (t - before.time) /
(after.time - before.time)`, applying the easing of the **before**
keyframe to `p`, and interpolating the two values with the eased
progress.  Consequently, on the track with keyframes
`{t:0, v:0, ease:linear}` and `{t:100, v:10, ease:ease-in}` the value at
`t = 50` is `0 + (10-0) * linear(0.5) = 5` — the before keyframe's
easing (`linear`) is the one applied, not the after keyframe's
`ease-in`, so the result is `5`, not the `2.5` the claim's concrete
scenario expects. -/
theorem C1_before_easing_rule :
    (∀ (tr : AnimationTrackM) (t : ℝ) (pre : List KeyframeM) (b a : KeyframeM)
        (post : List KeyframeM), tr.keyframes = pre ++ b :: a :: post →
        (∀ kf ∈ pre, kf.time < t) → b.time < t → t < a.time →
        getValueAtTime tr t = some (interpolate b.value a.value
          (applyEasing ((t - b.time) / (a.time - b.time)) b.easing)))
    ∧ getValueAtTime ⟨"x", [⟨0, .num 0, .linear⟩, ⟨100, .num 10, .easeIn⟩]⟩ 50
        = some (.num 5) := by
  constructor
  · exact fun tr t pre b a post h hpre hb ha => bracket_eval tr t pre b a post h hpre hb ha
  · norm_num [getValueAtTime, findIdx, interpolate, applyEasing, List.getD]

/-- Witness for C1: the interpolation rule applied to a concrete
two-keyframe track at a strictly interior time, with every hypothesis
discharged on concrete numbers. -/
theorem C1_before_easing_rule_witness :
    (⟨"w", [⟨0, .num 1, .linear⟩, ⟨10, .num 3, .linear⟩]⟩ :
        AnimationTrackM).keyframes
      = [] ++ ⟨0, .num 1, .linear⟩ :: ⟨10, .num 3, .linear⟩ :: []
    ∧ ((0 : ℝ) < 5 ∧ (5 : ℝ) < 10)
    ∧ getValueAtTime ⟨"w", [⟨0, .num 1, .linear⟩, ⟨10, .num 3, .linear⟩]⟩ 5
      = some (interpolate (.num 1) (.num 3)
          (applyEasing ((5 - 0) / (10 - 0)) .linear)) :=
  ⟨rfl, ⟨by norm_num, by norm_num⟩,
    C1_before_easing_rule.1 _ 5 [] ⟨0, .num 1, .linear⟩ ⟨10, .num 3, .linear⟩ []
      rfl (by simp) (by norm_num) (by norm_num)⟩

/-- Counterexample for C1's concrete scenario: on the track with
keyframes `{t:0, v:0, ease:linear}` and `{t:100, v:10, ease:ease-in}`,
`getValueAtTime(50)` returns `5` (the before keyframe's `linear` easing
is applied), not the `2.5` asserted by the claim. -/
theorem C1_scenario_counterexample :
    getValueAtTime ⟨"v", [⟨0, .num 0, .linear⟩, ⟨100, .num 10, .easeIn⟩]⟩ 50
      = some (.num 5)
    ∧ getValueAtTime ⟨"v", [⟨0, .num 0, .linear⟩, ⟨100, .num 10, .easeIn⟩]⟩ 50
      ≠ some (.num 2.5) := by
  have h : getValueAtTime
      ⟨"v", [⟨0, .num 0, .linear⟩, ⟨100, .num 10, .easeIn⟩]⟩ 50
      = some (.num 5) := by
    norm_num [getValueAtTime, findIdx, interpolate, applyEasing, List.getD]
  refine ⟨h, ?_⟩
  rw [h]
  intro hcontra
  have : (5 : ℝ) = 2.5 := by injection hcontra with h5; injection h5
  norm_num at this

/-- Witness for C2: clamping evaluated on concrete one-keyframe tracks,
below and above the keyframe time, discharging every hypothesis. -/
theorem C2_clamping_witness :
    ((3 : ℝ) ≤ 5
      ∧ getValueAtTime ⟨"w2", [⟨5, .num 1, .linear⟩]⟩ 3 = some (.num 1))
    ∧ ((5 : ℝ) ≤ 7
      ∧ getValueAtTime ⟨"w2", [⟨5, .num 1, .linear⟩]⟩ 7 = some (.num 1)) :=
  ⟨⟨by norm_num,
      (C2_clamping ⟨"w2", [⟨5, .num 1, .linear⟩]⟩ 3).2.1 ⟨5, .num 1, .linear⟩ []
        rfl (by norm_num)⟩,
    ⟨by norm_num,
      (C2_clamping ⟨"w2", [⟨5, .num 1, .linear⟩]⟩ 7).2.2 [] ⟨5, .num 1, .linear⟩
        rfl (by simp) (by norm_num)⟩⟩

-- ========== Object-value interpolation (claim C8) ==========

theorem lookupKey_objBlend_notMem (k : String) (ff tf : List (String × JSVal))
    (p : ℝ) (h : k ∉ ff.map Prod.fst) : lookupKey k (objBlend ff tf p) = none := by
  induction ff with
  | nil => rfl
  | cons kv ff' ih =>
    obtain ⟨k₀, v₀⟩ := kv
    have hk : k₀ ≠ k := by
      intro he
      exact h (by simp [he])
    have h' : k ∉ ff'.map Prod.fst := fun hm => h (by simp [hm])
    simp only [objBlend]
    split
    · simp only [lookupKey, if_neg hk]
      exact ih h'
    · exact ih h'

theorem lookupKey_objBlend_both_num (k : String) (ff tf : List (String × JSVal))
    (p : ℝ) (a b : ℝ) (hff : lookupKey k ff = some (.num a))
    (htf : lookupKey k tf = some (.num b)) :
    lookupKey k (objBlend ff tf p) = some (.num (a + (b - a) * p)) := by
  induction ff with
  | nil => simp [lookupKey] at hff
  | cons kv ff' ih =>
    obtain ⟨k₀, v₀⟩ := kv
    by_cases hk : k₀ = k
    · subst hk
      have hv : v₀ = .num a := by
        simpa [lookupKey] using hff
      subst hv
      simp only [objBlend, htf]
      simp [lookupKey]
    · have hff' : lookupKey k ff' = some (.num a) := by
        simpa [lookupKey, hk] using hff
      simp only [objBlend]
      split
      · simp only [lookupKey, if_neg hk]
        exact ih hff'
      · exact ih hff'

theorem lookupKey_objBlend_ff_not_num (k : String) (ff tf : List (String × JSVal))
    (p : ℝ) (hnd : (ff.map Prod.fst).Nodup)
    (hff : ∀ a, lookupKey k ff ≠ some (.num a)) :
    lookupKey k (objBlend ff tf p) = none := by
  induction ff with
  | nil => rfl
  | cons kv ff' ih =>
    obtain ⟨k₀, v₀⟩ := kv
    simp only [List.map_cons, List.nodup_cons] at hnd
    by_cases hk : k₀ = k
    · subst hk
      have hmem := lookupKey_objBlend_notMem k₀ ff' tf p hnd.1
      cases v₀ with
      | num a => exact absurd (by simp [lookupKey]) (hff a)
      | str s => simpa only [objBlend] using hmem
      | bool b => simpa only [objBlend] using hmem
      | obj o => simpa only [objBlend] using hmem
    · have hff' : ∀ a, lookupKey k ff' ≠ some (.num a) := by
        intro a hcontra
        exact hff a (by simpa [lookupKey, hk] using hcontra)
      simp only [objBlend]
      split
      · simp only [lookupKey, if_neg hk]
        exact ih hnd.2 hff'
      · exact ih hnd.2 hff'

theorem lookupKey_objBlend_tf_not_num (k : String) (ff tf : List (String × JSVal))
    (p : ℝ) (hnd : (ff.map Prod.fst).Nodup)
    (htf : ∀ b, lookupKey k tf ≠ some (.num b)) :
    lookupKey k (objBlend ff tf p) = none := by
  induction ff with
  | nil => rfl
  | cons kv ff' ih =>
    obtain ⟨k₀, v₀⟩ := kv
    simp only [List.map_cons, List.nodup_cons] at hnd
    by_cases hk : k₀ = k
    · subst hk
      have hmem := lookupKey_objBlend_notMem k₀ ff' tf p hnd.1
      cases v₀ with
      | num a =>
        cases htf0 : lookupKey k₀ tf with
        | none => simpa only [objBlend, htf0] using hmem
        | some w =>
          cases w with
          | num b => exact absurd htf0 (htf b)
          | str s => simpa only [objBlend, htf0] using hmem
          | bool b => simpa only [objBlend, htf0] using hmem
          | obj o => simpa only [objBlend, htf0] using hmem
      | str s => simpa only [objBlend] using hmem
      | bool b => simpa only [objBlend] using hmem
      | obj o => simpa only [objBlend] using hmem
    · simp only [objBlend]
      split
      · simp only [lookupKey, if_neg hk]
        exact ih hnd.2
      · exact ih hnd.2

section
open Classical

/-- CLAIM C8 (corrected).  Interpolating two structured-record keyframe
values with eased progress blends linearly exactly the fields that are
numeric in **both** records; every other field of the `before` record —
non-numeric fields as well as fields that are non-numeric or missing in
the `after` record — is **omitted** from the result entirely (the source
builds the result from an empty object), not kept at the before value as
the claim states.  Values that are neither both numbers nor both records
switch discretely at the midpoint `p' < 0.5`. -/
theorem C8_record_interpolation :
    (∀ (ff tf : List (String × JSVal)) (p : ℝ),
        interpolate (.obj ff) (.obj tf) p = .obj (objBlend ff tf p))
    ∧ (∀ (ff tf : List (String × JSVal)) (p : ℝ) (k : String) (a b : ℝ),
        lookupKey k ff = some (.num a) → lookupKey k tf = some (.num b) →
        lookupKey k (objBlend ff tf p) = some (.num (a + (b - a) * p)))
    ∧ (∀ (ff tf : List (String × JSVal)) (p : ℝ) (k : String),
        (ff.map Prod.fst).Nodup →
        ((∀ a, lookupKey k ff ≠ some (JSVal.num a)) ∨
          (∀ b, lookupKey k tf ≠ some (JSVal.num b))) →
        lookupKey k (objBlend ff tf p) = none)
    ∧ (∀ (v w : JSVal) (p : ℝ),
        (∀ a b, ¬(v = .num a ∧ w = .num b)) →
        (∀ fs ts, ¬(v = .obj fs ∧ w = .obj ts)) →
        interpolate v w p = if p < 0.5 then v else w) := by
  refine ⟨fun ff tf p => rfl, fun ff tf p k a b => lookupKey_objBlend_both_num k ff tf p a b, ?_, ?_⟩
  · intro ff tf p k hnd h
    rcases h with h | h
    · exact lookupKey_objBlend_ff_not_num k ff tf p hnd h
    · exact lookupKey_objBlend_tf_not_num k ff tf p hnd h
  · intro v w p h1 h2
    cases v <;> cases w <;> try rfl
    · exact absurd ⟨rfl, rfl⟩ (h1 _ _)
    · exact absurd ⟨rfl, rfl⟩ (h2 _ _)

end

/-- Counterexample for C8: blending `{a: 1, b: "x"}` toward
`{a: 3, b: "y"}` at eased progress `0.5` yields `{a: 2}` — the
non-numeric field `b` is dropped from the result, not left at the before
keyframe's value `"x"` as the claim asserts. -/
theorem C8_counterexample :
    interpolate (.obj [("a", .num 1), ("b", .str "x")])
        (.obj [("a", .num 3), ("b", .str "y")]) 0.5
      = .obj [("a", .num 2)]
    ∧ lookupKey "b" (objBlend [("a", .num 1), ("b", .str "x")]
        [("a", .num 3), ("b", .str "y")] 0.5) = none := by
  constructor
  · show JSVal.obj _ = _
    norm_num [interpolate, objBlend, lookupKey]
  · norm_num [objBlend, lookupKey, show ("a" : String) ≠ "b" from by decide]

/-- Witness for C8: the dropped-field clause applied at the concrete
record `{a: "s"}` (whose only field is non-numeric), with the `Nodup`
hypothesis discharged by computation. -/
theorem C8_record_interpolation_witness :
    (([("a", JSVal.str "s")] : List (String × JSVal)).map Prod.fst).Nodup
    ∧ lookupKey "a"
        (objBlend [("a", JSVal.str "s")] ([] : List (String × JSVal)) 0.5) = none :=
  ⟨by simp, C8_record_interpolation.2.2.1 [("a", JSVal.str "s")] [] 0.5 "a"
    (by simp)
    (Or.inl fun a hc => by simp [lookupKey] at hc)⟩

-- ========== Property-path application (claims C9) ==========

/-- Helper for `splitDot`: accumulate characters of the current segment
(in reverse) and cut at every separator. -/
def splitDotAux : List Char → List Char → List String
  | [], acc => [String.mk acc.reverse]
  | c :: cs, acc =>
      if c = '.' then String.mk acc.reverse :: splitDotAux cs []
      else splitDotAux cs (c :: acc)

/-- Model of JavaScript `path.split('.')` (as used by
`Animation.setPropertyValue`): split on every dot, keeping empty
segments; the empty string yields `[""]`. -/
def splitDot (s : String) : List String := splitDotAux s.toList []

section
open Classical

/-- JavaScript truthiness of a value, as tested by
`if (!current[parts[i]])`: `0`, `""` and `false` are falsy, every object
is truthy.  (A missing property — `undefined` — is handled at the call
site.) -/
noncomputable def truthy : JSVal → Bool
  | .num n => if n = 0 then false else true
  | .str s => if s = "" then false else true
  | .bool b => b
  | .obj _ => true

/-- The value the walk continues into after
`if (!current[parts[i]]) { current[parts[i]] = {} }`: a missing or falsy
field is replaced by a fresh empty object, a truthy field is kept. -/
noncomputable def childAfterDefault (fields : List (String × JSVal))
    (p : String) : JSVal :=
  match lookupKey p fields with
  | some v => if truthy v then v else .obj []
  | none => .obj []

/-- The walk of `Animation.setPropertyValue` over already-split path
parts.  In an ES module (strict mode) assigning a property on a
primitive value throws a `TypeError`; that outcome is modelled by
`none`.  On the tree model the in-place mutation of the source becomes
rebuilding each visited node with `setKey`. -/
noncomputable def setPath : JSVal → List String → JSVal → Option JSVal
  | .obj fields, [p], value => some (.obj (setKey p value fields))
  | .obj fields, p :: q :: rest, value =>
      match setPath (childAfterDefault fields p) (q :: rest) value with
      | some sub => some (.obj (setKey p sub fields))
      | none => none
  | _, _ :: _, _ => none
  | cur, [], _ => some cur

/-- `Animation.setPropertyValue(obj, path, value)`: split the dotted
path and walk/assign. -/
noncomputable def setPropertyValue (obj : JSVal) (path : String)
    (value : JSVal) : Option JSVal :=
  setPath obj (splitDot path) value

/-- The `Animation` class: id, name, duration (ms), the property→track
map in insertion order, and the loop mode. -/
structure AnimationM where
  id : String
  name : String
  duration : ℝ
  tracks : List (String × AnimationTrackM)
  loop : String

/-- The `tracks.forEach` loop of `Animation.applyToShape`: resolve each
track at the time and assign non-null values; a thrown `TypeError`
(`none`) aborts the whole loop, as an exception propagates out of
`forEach`. -/
noncomputable def applyTracks :
    List (String × AnimationTrackM) → JSVal → ℝ → Option JSVal
  | [], shape, _ => some shape
  | (property, track) :: rest, shape, time =>
      match getValueAtTime track time with
      | none => applyTracks rest shape time
      | some v =>
          match setPropertyValue shape property v with
          | some shape' => applyTracks rest shape' time
          | none => none

/-- `Animation.applyToShape(shape, time)` over the property tree model. -/
noncomputable def applyToShape (anim : AnimationM) (shape : JSVal)
    (time : ℝ) : Option JSVal :=
  applyTracks anim.tracks shape time

/-- Reading a value back along split path parts (dotted-path resolution;
used to state that the leaf really was assigned). -/
def getPath : JSVal → List String → Option JSVal
  | v, [] => some v
  | .obj fields, p :: rest =>
      match lookupKey p fields with
      | some c => getPath c rest
      | none => none
  | _, _ :: _ => none

/-- A path is safe for a value when the walk of `setPath` only ever
stands on objects: every existing node along the path is an object, or
is missing/falsy (in which case the code auto-creates a fresh record).
A path that steps into an existing truthy primitive is not safe — there
the source throws. -/
def pathOk : JSVal → List String → Prop
  | .obj _, [_] => True
  | .obj fields, p :: q :: rest => pathOk (childAfterDefault fields p) (q :: rest)
  | _, _ => False

/-- Safety of a whole `applyToShape` run: each track's path must be safe
for the shape value as it stands when that track is applied. -/
def applyOk : List (String × AnimationTrackM) → JSVal → ℝ → Prop
  | [], _, _ => True
  | (property, track) :: rest, shape, time =>
      match getValueAtTime track time with
      | none => applyOk rest shape time
      | some v => pathOk shape (splitDot property)
          ∧ ∀ r, setPath shape (splitDot property) v = some r → applyOk rest r time

end

theorem setPath_ok (parts : List String) :
    ∀ (cur v : JSVal), pathOk cur parts →
      ∃ r, setPath cur parts v = some r ∧ getPath r parts = some v := by
  induction parts with
  | nil =>
    intro cur v h
    cases cur <;> exact absurd h (by simp [pathOk])
  | cons p rest ih =>
    intro cur v h
    cases rest with
    | nil =>
      cases cur with
      | obj fields =>
        refine ⟨.obj (setKey p v fields), rfl, ?_⟩
        simp [getPath, lookupKey_setKey_self]
      | num n => exact absurd h (by simp [pathOk])
      | str s => exact absurd h (by simp [pathOk])
      | bool b => exact absurd h (by simp [pathOk])
    | cons q rest' =>
      cases cur with
      | obj fields =>
        have hchild : pathOk (childAfterDefault fields p) (q :: rest') := h
        obtain ⟨sub, hsub, hget⟩ := ih (childAfterDefault fields p) v hchild
        refine ⟨.obj (setKey p sub fields), ?_, ?_⟩
        · simp only [setPath, hsub]
        · simp only [getPath, lookupKey_setKey_self]
          exact hget
      | num n => exact absurd h (by simp [pathOk])
      | str s => exact absurd h (by simp [pathOk])
      | bool b => exact absurd h (by simp [pathOk])

theorem applyTracks_ok :
    ∀ (tracks : List (String × AnimationTrackM)) (shape : JSVal) (time : ℝ),
      applyOk tracks shape time → ∃ r, applyTracks tracks shape time = some r := by
  intro tracks
  induction tracks with
  | nil => exact fun shape time _ => ⟨shape, rfl⟩
  | cons pt rest ih =>
    intro shape time h
    obtain ⟨property, track⟩ := pt
    cases hgv : getValueAtTime track time with
    | none =>
      have h' : applyOk rest shape time := by
        simpa only [applyOk, hgv] using h
      obtain ⟨r, hr⟩ := ih shape time h'
      exact ⟨r, by simp only [applyTracks, hgv, hr]⟩
    | some v =>
      have h' : pathOk shape (splitDot property)
          ∧ ∀ r, setPath shape (splitDot property) v = some r →
              applyOk rest r time := by
        simpa only [applyOk, hgv] using h
      obtain ⟨r₁, hset, _⟩ := setPath_ok (splitDot property) shape v h'.1
      obtain ⟨r₂, hr₂⟩ := ih r₁ time (h'.2 r₁ hset)
      refine ⟨r₂, ?_⟩
      simp only [applyTracks, hgv, setPropertyValue, hset, hr₂]

/-- CLAIM C9 (corrected).  `applyToShape` succeeds without throwing —
auto-creating missing intermediate records and assigning the leaf —
whenever every node an applied path steps on is a record or a
missing/falsy field.  The first conjunct states leaf assignment for one
path, the second extends it to whole animations.  (The original claim's
"for every property path" is too strong: a path that traverses an
existing truthy primitive throws a `TypeError` in strict mode, see the
counterexample.) -/
theorem C9_apply_safe_paths :
    (∀ (parts : List String) (cur v : JSVal), pathOk cur parts →
        ∃ r, setPath cur parts v = some r ∧ getPath r parts = some v)
    ∧ (∀ (anim : AnimationM) (shape : JSVal) (time : ℝ),
        applyOk anim.tracks shape time →
        ∃ r, applyToShape anim shape time = some r) :=
  ⟨fun parts => setPath_ok parts,
    fun anim shape time h => applyTracks_ok anim.tracks shape time h⟩

/-- Counterexample for C9: on the shape `{a: 5}` a track addressing the
path `"a.b"` steps into the existing truthy primitive `5`; strict-mode
property assignment on a primitive throws, so `applyToShape` aborts
(`none`) instead of never throwing. -/
theorem C9_counterexample :
    applyToShape
        ⟨"a1", "anim", 1000, [("a.b", ⟨"a.b", [⟨0, .num 1, .linear⟩]⟩)], "loop"⟩
        (.obj [("a", .num 5)]) 0
      = none := by
  have hsplit : splitDot "a.b" = ["a", "b"] := by decide
  have hval : getValueAtTime ⟨"a.b", [⟨0, .num 1, .linear⟩]⟩ 0
      = some (.num 1) := by
    norm_num [getValueAtTime, findIdx, List.getD]
  have hchild : childAfterDefault [("a", JSVal.num 5)] "a" = .num 5 := by
    norm_num [childAfterDefault, lookupKey, truthy]
  simp only [applyToShape, applyTracks, hval, setPropertyValue, hsplit]
  simp only [setPath, hchild]

/-- Witness for C9: a concrete animation writing `7` through the path
`"t.x"` on the shape `{t: {x: 0}}`; every safety hypothesis is
discharged by evaluation, and the run succeeds. -/
theorem C9_apply_safe_paths_witness :
    applyOk [("t.x", ⟨"t.x", [⟨0, .num 7, .linear⟩]⟩)]
        (.obj [("t", .obj [("x", .num 0)])]) 0
    ∧ ∃ r, applyToShape
        ⟨"a2", "anim2", 500, [("t.x", ⟨"t.x", [⟨0, .num 7, .linear⟩]⟩)], "once"⟩
        (.obj [("t", .obj [("x", .num 0)])]) 0 = some r := by
  have hsplit : splitDot "t.x" = ["t", "x"] := by decide
  have hval : getValueAtTime ⟨"t.x", [⟨0, .num 7, .linear⟩]⟩ 0
      = some (.num 7) := by
    norm_num [getValueAtTime, findIdx, List.getD]
  have hok : applyOk [("t.x", ⟨"t.x", [⟨0, .num 7, .linear⟩]⟩)]
      (.obj [("t", .obj [("x", .num 0)])]) 0 := by
    simp only [applyOk, hval, hsplit]
    constructor
    · norm_num [pathOk, childAfterDefault, lookupKey, truthy]
    · intro r _
      simp [applyOk]
  exact ⟨hok,
    C9_apply_safe_paths.2
      ⟨"a2", "anim2", 500, [("t.x", ⟨"t.x", [⟨0, .num 7, .linear⟩]⟩)], "once"⟩
      (.obj [("t", .obj [("x", .num 0)])]) 0 hok⟩

-- ========== Easing boundary values (claim C7) ==========

theorem elastic_at_zero : applyEasing 0 .elastic = 0 := by
  have hexp : (2 : ℝ) ^ (-10 * (0 : ℝ)) = 1 := by
    rw [show (-10 * (0 : ℝ)) = (0 : ℝ) by norm_num, Real.rpow_zero]
  have hang : ((0 : ℝ) - 0.075) * (2 * Real.pi) / 0.3 = -(Real.pi / 2) := by
    ring_nf
  simp only [applyEasing, hexp, hang, Real.sin_neg, Real.sin_pi_div_two]
  norm_num

theorem elastic_at_one : applyEasing 1 .elastic = 2049 / 2048 := by
  have hexp : (2 : ℝ) ^ (-10 * (1 : ℝ)) = 1 / 1024 := by
    rw [show (-10 * (1 : ℝ)) = ((-10 : ℤ) : ℝ) by norm_num, Real.rpow_intCast]
    norm_num
  have hang : ((1 : ℝ) - 0.075) * (2 * Real.pi) / 0.3
      = Real.pi / 6 + 2 * Real.pi + 2 * Real.pi + 2 * Real.pi := by
    ring_nf
  simp only [applyEasing, hexp, hang, Real.sin_add_two_pi, Real.sin_pi_div_six]
  norm_num

/-- CLAIM C7 (corrected).  The named easing curves at the boundary
inputs, as implemented: `linear`, `ease-in`, `ease-out`, `ease-in-out`
and `bounce` map `0 ↦ 0` and `1 ↦ 1` exactly, and `elastic` maps
`0 ↦ 0`; but `elastic` maps `1` to `2^(-10)·sin(37π/6) + 1 = 2049/2048`,
not to `1`, so the claim's "every named easing function" fails for
`elastic` at `1`. -/
theorem C7_easing_boundaries :
    (applyEasing 0 .linear = 0 ∧ applyEasing 1 .linear = 1)
    ∧ (applyEasing 0 .easeIn = 0 ∧ applyEasing 1 .easeIn = 1)
    ∧ (applyEasing 0 .easeOut = 0 ∧ applyEasing 1 .easeOut = 1)
    ∧ (applyEasing 0 .easeInOut = 0 ∧ applyEasing 1 .easeInOut = 1)
    ∧ (applyEasing 0 .bounce = 0 ∧ applyEasing 1 .bounce = 1)
    ∧ applyEasing 0 .elastic = 0
    ∧ applyEasing 1 .elastic = 2049 / 2048 := by
  refine ⟨⟨?_, ?_⟩, ⟨?_, ?_⟩, ⟨?_, ?_⟩, ⟨?_, ?_⟩, ⟨?_, ?_⟩,
    elastic_at_zero, elastic_at_one⟩ <;> norm_num [applyEasing]

/-- Counterexample for C7: the implemented `elastic` curve evaluated at
`1` is `2049/2048 ≠ 1`, refuting the claim that every named easing
function maps `1` to exactly `1`. -/
theorem C7_counterexample :
    applyEasing 1 .elastic = 2049 / 2048 ∧ applyEasing 1 .elastic ≠ 1 := by
  refine ⟨elastic_at_one, ?_⟩
  rw [elastic_at_one]
  norm_num

-- ========== State machine (claims C3, C5) ==========

/-- A dynamically typed parameter/condition value.  JavaScript numbers
are modelled as rationals here (the state machine only compares values,
and decidability lets counterexamples evaluate); `undef` models
`undefined`, the result of reading an absent parameter. -/
inductive PVal where
  | b (x : Bool)
  | n (x : ℚ)
  | s (x : String)
  | undef
deriving DecidableEq

/-- The comparison operator of a `Condition`
(`'==' | '!=' | '>' | '<' | '>=' | '<='`). -/
inductive CmpOp where
  | eq | ne | gt | lt | ge | le
deriving DecidableEq

/-- A `Condition` record; the `type` tag is carried, but — exactly as in
the source — never consulted by evaluation. -/
structure ConditionM where
  ctype : String
  parameter : String
  operator : CmpOp
  value : PVal
deriving DecidableEq

/-- A `Trigger` record. -/
structure TriggerM where
  ttype : String
  targetId : Option String
  key : Option String
  eventName : Option String
deriving DecidableEq

/-- A `StateTransition` record (`from` is written `«from»`: it is a Lean
keyword). -/
structure StateTransitionM where
  «from» : String
  «to» : String
  conditions : List ConditionM
  triggers : List TriggerM
  duration : Option ℚ
deriving DecidableEq

/-- A `StateMachineState` record. -/
structure SMStateM where
  id : String
  name : String
  animationId : Option String
  position : ℚ × ℚ
deriving DecidableEq

/-- The event argument of `checkTransitions`. -/
structure EventM where
  etype : String
  target : Option String
  key : Option String
deriving DecidableEq

/-- The `StateMachine` class state; the `states` and `parameters` `Map`s
become association lists in insertion order. -/
structure StateMachineM where
  id : String
  name : String
  states : List (String × SMStateM)
  transitions : List StateTransitionM
  parameters : List (String × PVal)
  currentState : String
  entryState : String
deriving DecidableEq

/-- The `StateMachine` constructor: empty states, transitions and
parameters; `currentState` and `entryState` start as the id `'entry'`
even though no state with that id exists yet. -/
def SMnew (id name : String) : StateMachineM :=
  ⟨id, name, [], [], [], "entry", "entry"⟩

/-- `StateMachine.addState`: `Map.set` of a fresh state record at
position `(0, 0)`. -/
def addState (sm : StateMachineM) (id name : String)
    (animationId : Option String) : StateMachineM :=
  { sm with states := setKey id ⟨id, name, animationId, (0, 0)⟩ sm.states }

/-- `StateMachine.addTransition`: push a transition record (duration
stays `undefined`); the target ids are not validated. -/
def addTransition (sm : StateMachineM) (f t : String)
    (triggers : List TriggerM) (conditions : List ConditionM) : StateMachineM :=
  { sm with transitions := sm.transitions ++ [⟨f, t, conditions, triggers, none⟩] }

/-- `StateMachine.setParameter`. -/
def setParameter (sm : StateMachineM) (name : String) (value : PVal) :
    StateMachineM :=
  { sm with parameters := setKey name value sm.parameters }

/-- JavaScript `ToNumber` on the parameter values that appear in
relational comparisons: booleans coerce to `0`/`1`; strings and
`undefined` are not modelled numerically (the editor's conditions
compare same-typed operands; a cross-type string/number comparison is
modelled as false, and any comparison against `undefined` is `NaN` in
the source, hence false). -/
def toNumber : PVal → Option ℚ
  | .n x => some x
  | .b true => some 1
  | .b false => some 0
  | .s _ => none
  | .undef => none

/-- JavaScript `a < b` on parameter values: lexicographic for two
strings, numeric after coercion otherwise. -/
def jsLT : PVal → PVal → Bool
  | .s a, .s b => decide (a < b)
  | v, w =>
      match toNumber v, toNumber w with
      | some x, some y => decide (x < y)
      | _, _ => false

/-- JavaScript `a > b` on parameter values. -/
def jsGT : PVal → PVal → Bool
  | .s a, .s b => decide (b < a)
  | v, w =>
      match toNumber v, toNumber w with
      | some x, some y => decide (y < x)
      | _, _ => false

/-- JavaScript `a <= b` on parameter values. -/
def jsLE : PVal → PVal → Bool
  | .s a, .s b => decide (a ≤ b)
  | v, w =>
      match toNumber v, toNumber w with
      | some x, some y => decide (x ≤ y)
      | _, _ => false

/-- JavaScript `a >= b` on parameter values. -/
def jsGE : PVal → PVal → Bool
  | .s a, .s b => decide (b ≤ a)
  | v, w =>
      match toNumber v, toNumber w with
      | some x, some y => decide (y ≤ x)
      | _, _ => false

/-- The condition `switch` of `checkTransitions`: read the parameter
(`undefined` if absent) and apply the named operator; `===`/`!==` are
strict (cross-type equality is false). -/
def evalCondition (params : List (String × PVal)) (c : ConditionM) : Bool :=
  let value := (lookupKey c.parameter params).getD .undef
  match c.operator with
  | .eq => decide (value = c.value)
  | .ne => !decide (value = c.value)
  | .gt => jsGT value c.value
  | .lt => jsLT value c.value
  | .ge => jsGE value c.value
  | .le => jsLE value c.value

/-- Truthiness of the optional `targetId`/`key` fields as tested by
`if (trigger.targetId && ...)`: absent or empty-string values are
falsy. -/
def strTruthy : Option String → Bool
  | none => false
  | some s => !decide (s = "")

/-- The trigger predicate inside `checkTransitions`: the types must
match, and a present (truthy) `targetId`/`key` must equal the event's
`target`/`key`. -/
def triggerMatches (tr : TriggerM) (e : EventM) : Bool :=
  if tr.ttype ≠ e.etype then false
  else if strTruthy tr.targetId && decide (tr.targetId ≠ e.target) then false
  else if strTruthy tr.key && decide (tr.key ≠ e.key) then false
  else true

/-- One transition's scan step in `checkTransitions`: the three `continue`
guards of the loop, in order — source state, triggers (only checked when
an event was passed **and** the trigger list is non-empty), conditions
(only checked when non-empty). -/
def transitionPasses (sm : StateMachineM) (event : Option EventM)
    (t : StateTransitionM) : Bool :=
  decide (t.«from» = sm.currentState)
  && (match event with
      | none => true
      | some e => t.triggers.isEmpty || t.triggers.any fun g => triggerMatches g e)
  && (t.conditions.isEmpty || t.conditions.all (evalCondition sm.parameters))

/-- `StateMachine.checkTransitions(event?)`: commit the first transition
(in declaration order) that passes all guards, set `currentState` to its
target and return that id; otherwise leave the machine unchanged and
return `null`. -/
def checkTransitions (sm : StateMachineM) (event : Option EventM) :
    StateMachineM × Option String :=
  match sm.transitions.find? (transitionPasses sm event) with
  | some t => ({ sm with currentState := t.«to» }, some t.«to»)
  | none => (sm, none)

/-- States reachable from the constructor by the mutator API. -/
inductive ReachableSM : StateMachineM → Prop where
  | init (id name : String) : ReachableSM (SMnew id name)
  | addState (sm : StateMachineM) (id name : String)
      (animationId : Option String) :
      ReachableSM sm → ReachableSM (addState sm id name animationId)
  | addTransition (sm : StateMachineM) (f t : String)
      (triggers : List TriggerM) (conditions : List ConditionM) :
      ReachableSM sm → ReachableSM (addTransition sm f t triggers conditions)
  | setParameter (sm : StateMachineM) (name : String) (value : PVal) :
      ReachableSM sm → ReachableSM (setParameter sm name value)
  | check (sm : StateMachineM) (event : Option EventM) :
      ReachableSM sm → ReachableSM (checkTransitions sm event).1

/-- Declarative trigger gate: with no event the trigger check is skipped
(this is what the source does — the guard is `if (event && ...)`); with
an event, the trigger list must be empty or contain a matching
trigger. -/
def TrigOk (event : Option EventM) (t : StateTransitionM) : Prop :=
  match event with
  | none => True
  | some e => t.triggers = [] ∨ ∃ g ∈ t.triggers, triggerMatches g e = true

/-- Declarative condition gate: every condition evaluates to true
against the current parameters (vacuously true for an empty list). -/
def CondOk (params : List (String × PVal)) (t : StateTransitionM) : Prop :=
  ∀ c ∈ t.conditions, evalCondition params c = true

/-- Declarative firing predicate for one transition. -/
def Fires (sm : StateMachineM) (event : Option EventM)
    (t : StateTransitionM) : Prop :=
  t.«from» = sm.currentState ∧ TrigOk event t ∧ CondOk sm.parameters t

theorem condGate_iff (params : List (String × PVal)) (t : StateTransitionM) :
    (t.conditions.isEmpty || t.conditions.all (evalCondition params)) = true
      ↔ CondOk params t := by
  rcases hc : t.conditions with _ | ⟨c, cs⟩
  · simp [CondOk, hc]
  · simp [CondOk, hc, List.all_eq_true]

theorem trigGate_iff (event : Option EventM) (t : StateTransitionM) :
    (match event with
      | none => true
      | some e => t.triggers.isEmpty || t.triggers.any fun g => triggerMatches g e)
        = true
      ↔ TrigOk event t := by
  cases event with
  | none => simp [TrigOk]
  | some e =>
    rcases ht : t.triggers with _ | ⟨g, gs⟩
    · simp [TrigOk, ht]
    · simp [TrigOk, ht, List.any_eq_true]

theorem transitionPasses_iff (sm : StateMachineM) (event : Option EventM)
    (t : StateTransitionM) :
    transitionPasses sm event t = true ↔ Fires sm event t := by
  simp only [transitionPasses, Bool.and_eq_true, decide_eq_true_eq]
  rw [trigGate_iff, condGate_iff]
  unfold Fires
  exact and_assoc

theorem find?_first (p : α → Bool) (l₁ : List α) (t : α) (l₂ : List α)
    (ht : p t = true) (hl : ∀ u ∈ l₁, ¬p u = true) :
    (l₁ ++ t :: l₂).find? p = some t := by
  induction l₁ with
  | nil => exact List.find?_cons_of_pos _ ht
  | cons u l₁' ih =>
    rw [List.cons_append, List.find?_cons_of_neg _ (hl u (by simp))]
    exact ih fun v hv => hl v (by simp [hv])

/-- CLAIM C3 (corrected).  `checkTransitions` scans the transition list
in declaration order and commits the first transition whose source is
`currentState`, whose trigger gate passes (the trigger list is empty or
contains a trigger matching the given event — but when **no event** is
passed the trigger check is skipped entirely, so a transition with a
non-empty trigger list can still fire), and whose conditions all
evaluate true; on a match `currentState` becomes the transition's `to`
and that id is returned, and when nothing matches the machine is
unchanged and `null` is returned. -/
theorem C3_first_match (sm : StateMachineM) (event : Option EventM) :
    ((∀ t ∈ sm.transitions, ¬Fires sm event t) →
        checkTransitions sm event = (sm, none))
    ∧ (∀ l₁ t l₂, sm.transitions = l₁ ++ t :: l₂ → Fires sm event t →
        (∀ u ∈ l₁, ¬Fires sm event u) →
        checkTransitions sm event
          = ({ sm with currentState := t.«to» }, some t.«to»)) := by
  constructor
  · intro h
    have hf : sm.transitions.find? (transitionPasses sm event) = none := by
      rw [List.find?_eq_none]
      intro u hu hpass
      exact h u hu ((transitionPasses_iff sm event u).1 hpass)
    simp [checkTransitions, hf]
  · intro l₁ t l₂ hdecomp hfire hnone
    have hfind : sm.transitions.find? (transitionPasses sm event) = some t := by
      rw [hdecomp]
      exact find?_first _ l₁ t l₂ ((transitionPasses_iff sm event t).2 hfire)
        fun u hu hpass => hnone u hu ((transitionPasses_iff sm event u).1 hpass)
    simp [checkTransitions, hfind]

/-- A concrete machine for the C3 witness: one state, one
unconditional transition `entry → done`. -/
def smW : StateMachineM :=
  ⟨"m", "M", [("entry", ⟨"entry", "Entry", none, (0, 0)⟩)],
    [⟨"entry", "done", [], [], none⟩], [], "entry", "entry"⟩

/-- Witness for C3: on `smW` the first (and only) transition fires,
`currentState` becomes `"done"` and `"done"` is returned; every
hypothesis of the first-match theorem is discharged concretely. -/
theorem C3_first_match_witness :
    smW.transitions = [] ++ ⟨"entry", "done", [], [], none⟩ :: []
    ∧ Fires smW none ⟨"entry", "done", [], [], none⟩
    ∧ checkTransitions smW none
        = ({ smW with currentState := "done" }, some "done") :=
  ⟨rfl, ⟨rfl, trivial, by simp [CondOk]⟩,
    (C3_first_match smW none).2 [] ⟨"entry", "done", [], [], none⟩ [] rfl
      ⟨rfl, trivial, by simp [CondOk]⟩ (by simp)⟩

/-- The transition-enabling predicate exactly as claim C3 words it:
the trigger list must be empty or contain a trigger matching **the given
event** — so when no event is given, a non-empty trigger list can never
match.  (Definition follows the claim's words, for comparison with the
source's `transitionPasses`.) -/
def claimFires (sm : StateMachineM) (event : Option EventM)
    (t : StateTransitionM) : Bool :=
  decide (t.«from» = sm.currentState)
  && (t.triggers.isEmpty
      || (match event with
          | some e => t.triggers.any fun g => triggerMatches g e
          | none => false))
  && (t.conditions.isEmpty || t.conditions.all (evalCondition sm.parameters))

/-- The returned id under claim C3's reading of `checkTransitions`. -/
def claimCheck (sm : StateMachineM) (event : Option EventM) : Option String :=
  (sm.transitions.find? (claimFires sm event)).map (·.«to»)

/-- A concrete machine for the C3 counterexample: a transition out of
`entry` guarded by a `click` trigger and nothing else. -/
def smC : StateMachineM :=
  ⟨"m", "M",
    [("entry", ⟨"entry", "Entry", none, (0, 0)⟩),
      ("s2", ⟨"s2", "S2", none, (0, 0)⟩)],
    [⟨"entry", "s2", [], [⟨"click", none, none, none⟩], none⟩],
    [], "entry", "entry"⟩

/-- Counterexample for C3: calling `checkTransitions()` with **no
event** on `smC` fires the trigger-guarded transition (the source skips
the trigger check when no event is passed) and moves `currentState` to
`"s2"`, while under the claim's reading (trigger list empty or matching
the given event) no transition may fire and `null` must be returned. -/
theorem C3_counterexample :
    (checkTransitions smC none).2 = some "s2"
    ∧ (checkTransitions smC none).1.currentState = "s2"
    ∧ claimCheck smC none = none := by
  refine ⟨?_, ?_, ?_⟩ <;> decide

/-- CLAIM C5 (corrected).  `currentState` is always either the initial
placeholder id `"entry"` or the `to` field of some transition in the
machine's transition list.  Nothing validates that this id names an
existing state: the freshly constructed machine's `currentState` is
`"entry"` before any state exists, and `checkTransitions` commits a
matching transition's `to` even when no state carries that id. -/
theorem C5_currentState_origin (sm : StateMachineM) (h : ReachableSM sm) :
    sm.currentState = "entry"
      ∨ ∃ t ∈ sm.transitions, sm.currentState = t.«to» := by
  induction h with
  | init id name => exact Or.inl rfl
  | addState sm id name animationId hr ih => exact ih
  | addTransition sm f t triggers conditions hr ih =>
    rcases ih with hl | ⟨u, hu, he⟩
    · exact Or.inl hl
    · exact Or.inr ⟨u, List.mem_append_left _ hu, he⟩
  | setParameter sm name value hr ih => exact ih
  | check sm event hr ih =>
    cases hf : sm.transitions.find? (transitionPasses sm event) with
    | none => simpa [checkTransitions, hf] using ih
    | some t =>
      simp only [checkTransitions, hf]
      exact Or.inr ⟨t, List.mem_of_find?_eq_some hf, rfl⟩

/-- Witness for C5: the origin invariant applied to the freshly
constructed machine, whose reachability is immediate. -/
theorem C5_currentState_origin_witness :
    ReachableSM (SMnew "m" "M")
    ∧ ((SMnew "m" "M").currentState = "entry"
        ∨ ∃ t ∈ (SMnew "m" "M").transitions,
            (SMnew "m" "M").currentState = t.«to») :=
  ⟨.init "m" "M", C5_currentState_origin _ (.init "m" "M")⟩

/-- Counterexample for C5, refuting both halves of the claim on one
reachable machine: the fresh machine's `currentState` is `"entry"`,
which is not a key of its (empty) state map; and after adding the
transition `entry → ghost` (whose target names no state),
`checkTransitions()` moves `currentState` to `"ghost"`, which again
names no existing state — so a transition with an undefined target id
does change `currentState`. -/
theorem C5_counterexample :
    (ReachableSM (SMnew "m" "M")
      ∧ lookupKey (SMnew "m" "M").currentState (SMnew "m" "M").states = none)
    ∧ (ReachableSM
        (checkTransitions (addTransition (SMnew "m" "M") "entry" "ghost" [] [])
          none).1
      ∧ (checkTransitions (addTransition (SMnew "m" "M") "entry" "ghost" [] [])
          none).1.currentState = "ghost"
      ∧ lookupKey "ghost"
          (checkTransitions (addTransition (SMnew "m" "M") "entry" "ghost" [] [])
            none).1.states = none) :=
  ⟨⟨.init "m" "M", by decide⟩,
    ⟨.check _ none (.addTransition _ "entry" "ghost" [] [] (.init "m" "M")),
      by decide, by decide⟩⟩

-- ========== Group membership (claim C6) ==========

/-- A snapshot of group membership over object identities: each group id
maps to its ordered children list, each shape id to its parent
back-reference (`none` both for "no parent" and for never-touched
shapes, as in the source where `parent` starts `null`). -/
structure GSt where
  children : List (String × List String)
  parent : List (String × Option String)
deriving DecidableEq

/-- Children list of a group (empty when the group was never touched). -/
def childrenOf (st : GSt) (g : String) : List String :=
  (lookupKey g st.children).getD []

/-- Parent back-reference of a shape. -/
def parentOf (st : GSt) (s : String) : Option String :=
  (lookupKey s st.parent).getD none

/-- `Group.addChild(shape)`: set the back-reference and push onto the
children list — with **no** removal from any previous parent's list. -/
def addChildG (st : GSt) (g s : String) : GSt :=
  { children := setKey g (childrenOf st g ++ [s]) st.children,
    parent := setKey s (some g) st.parent }

/-- `Group.removeChild(shape)`: if the shape occurs in this group's
children (`indexOf > -1`), null its back-reference and splice out the
first occurrence; otherwise do nothing. -/
def removeChildG (st : GSt) (g s : String) : GSt :=
  let cs := childrenOf st g
  if s ∈ cs then
    { children := setKey g (cs.erase s) st.children,
      parent := setKey s none st.parent }
  else st

/-- CLAIM C6 (corrected).  After `g.addChild(s)` then `h.addChild(s)`
the shape's parent reference is `h` and `s` is a member of **both**
`h`'s and `g`'s children lists — `addChild` never detaches the shape
from its previous parent, so membership is not exclusive as the claim
asserts.  `removeChild` of a non-member is a no-op, as claimed. -/
theorem C6_addChild_membership (st : GSt) (g h s : String) :
    (parentOf (addChildG (addChildG st g s) h s) s = some h
      ∧ s ∈ childrenOf (addChildG (addChildG st g s) h s) h
      ∧ s ∈ childrenOf (addChildG (addChildG st g s) h s) g)
    ∧ (∀ (st' : GSt) (g' s' : String), s' ∉ childrenOf st' g' →
        removeChildG st' g' s' = st') := by
  refine ⟨⟨?_, ?_, ?_⟩, ?_⟩
  · simp [parentOf, addChildG, lookupKey_setKey_self]
  · simp [childrenOf, addChildG, lookupKey_setKey_self]
  · by_cases hg : h = g
    · subst hg
      simp [childrenOf, addChildG, lookupKey_setKey_self]
    · have hne : g ≠ h := Ne.symm hg
      simp only [childrenOf, addChildG]
      rw [lookupKey_setKey_ne h g _ _ hne, lookupKey_setKey_self]
      simp
  · intro st' g' s' hmem
    simp [removeChildG, hmem]

/-- Witness for C6: membership after the two adds on the empty snapshot,
and the no-op removal of a non-member, all on concrete ids. -/
theorem C6_addChild_membership_witness :
    ("x" ∉ childrenOf ⟨[], []⟩ "g"
      ∧ removeChildG ⟨[], []⟩ "g" "x" = ⟨[], []⟩)
    ∧ "s" ∈ childrenOf (addChildG (addChildG ⟨[], []⟩ "g" "s") "h" "s") "g" :=
  ⟨⟨by decide,
      (C6_addChild_membership ⟨[], []⟩ "g" "h" "s").2 ⟨[], []⟩ "g" "x"
        (by decide)⟩,
    (C6_addChild_membership ⟨[], []⟩ "g" "h" "s").1.2.2⟩

/-- Counterexample for C6: starting from the empty snapshot,
`g.addChild(s); h.addChild(s)` leaves `s` in `g`'s children list as well
as `h`'s (the claim says it must appear in exactly `h`'s), although the
parent reference does equal `h`. -/
theorem C6_counterexample :
    parentOf (addChildG (addChildG ⟨[], []⟩ "g" "s") "h" "s") "s" = some "h"
    ∧ "s" ∈ childrenOf (addChildG (addChildG ⟨[], []⟩ "g" "s") "h" "s") "h"
    ∧ "s" ∈ childrenOf (addChildG (addChildG ⟨[], []⟩ "g" "s") "h" "s") "g" := by
  refine ⟨?_, ?_, ?_⟩ <;> decide

-- ========== Shape cloning (claim C10) ==========

/-- A heap of 2-D vector objects, addressed by reference.  The nested
`position`/`scale`/`pivot` objects of a `Transform` are mutable shared
JavaScript objects; making the references explicit lets aliasing (and
therefore "does mutating the clone touch the original?") be stated. -/
def VecHeap := ℕ → ℝ × ℝ

/-- Heap read of a vector cell. -/
def readVec (h : VecHeap) (r : ℕ) : ℝ × ℝ := h r

/-- Heap write (`vec.x = ...` style mutation) of a vector cell. -/
def writeVec (h : VecHeap) (r : ℕ) (v : ℝ × ℝ) : VecHeap :=
  Function.update h r v

/-- A `Transform` record: the three nested vectors by reference, the
rotation inline. -/
structure TransformRef where
  position : ℕ
  scale : ℕ
  pivot : ℕ
  rotation : ℝ

/-- A `Fill` record with its nested colour object by reference. -/
structure FillRef where
  ftype : String
  colorRef : Option ℕ

/-- A `Stroke` record with its nested colour object by reference. -/
structure StrokeRef where
  colorRef : ℕ
  width : ℝ
  cap : String
  join : String

/-- The data of a `Rectangle` instance. -/
structure RectData where
  id : String
  name : String
  transform : TransformRef
  fill : FillRef
  stroke : Option StrokeRef
  opacity : ℝ
  visible : Bool
  locked : Bool
  width : ℝ
  height : ℝ
  cornerRadius : ℝ

/-- `Rectangle.clone()`: fresh id with the `_clone` suffix, fresh name
with the `' 副本'` ("copy") suffix; `{...this.transform}`,
`{...this.fill}` and `{...this.stroke}` copy those records one level
deep, so the copied records still hold the **same** nested
position/scale/pivot/colour references; `width`/`height`/`cornerRadius`
and `opacity` are copied; `visible` and `locked` stay at the
constructor defaults (`true`/`false`) — the source never copies them. -/
def cloneRect (r : RectData) : RectData :=
  { id := r.id ++ "_clone", name := r.name ++ " 副本",
    transform := r.transform, fill := r.fill, stroke := r.stroke,
    opacity := r.opacity, visible := true, locked := false,
    width := r.width, height := r.height, cornerRadius := r.cornerRadius }

/-- The data of a `Group` instance (the source's `Group.clone` copies
only transform and opacity besides identity; fill/stroke stay at
constructor defaults). -/
structure GroupData where
  id : String
  name : String
  transform : TransformRef
  opacity : ℝ

/-- A shape tree: rectangles as leaves, groups owning ordered
children (the `parent` back-reference is the containment relation of
the tree). -/
inductive ShapeR where
  | rectS (d : RectData)
  | groupS (d : GroupData) (children : List ShapeR)

mutual

/-- `clone()` over the shape tree: `Rectangle.clone` on leaves;
`Group.clone` builds the suffixed group and `addChild`s each child's
recursive clone (which sets the cloned child's parent to the cloned
group — in the tree model, containment). -/
def cloneShapeR : ShapeR → ShapeR
  | .rectS d => .rectS (cloneRect d)
  | .groupS d cs =>
      .groupS ⟨d.id ++ "_clone", d.name ++ " 副本", d.transform, d.opacity⟩
        (cloneShapeList cs)

def cloneShapeList : List ShapeR → List ShapeR
  | [] => []
  | c :: rest => cloneShapeR c :: cloneShapeList rest

end

theorem cloneShapeList_eq_map (cs : List ShapeR) :
    cloneShapeList cs = cs.map cloneShapeR := by
  induction cs with
  | nil => rfl
  | cons c rest ih => simp [cloneShapeList, ih]

/-- CLAIM C10 (corrected).  `clone()` derives the id with a `_clone`
suffix and the display name with a copy suffix, and copies
width/height/cornerRadius/opacity; the transform/fill/stroke records
are copied only **one level deep** — the clone's transform holds the
same nested position reference as the original, so writing the clone's
position is observed through the original (third conjunct), contrary to
the claim's "mutating clone.transform.position.x leaves the original
unchanged".  For a `Group`, all children are recursively cloned under
the cloned group (last conjunct). -/
theorem C10_clone_shallow (r : RectData) :
    ((cloneRect r).id = r.id ++ "_clone"
      ∧ (cloneRect r).name = r.name ++ " 副本"
      ∧ (cloneRect r).width = r.width
      ∧ (cloneRect r).height = r.height
      ∧ (cloneRect r).cornerRadius = r.cornerRadius
      ∧ (cloneRect r).opacity = r.opacity)
    ∧ ((cloneRect r).transform = r.transform
      ∧ (cloneRect r).fill = r.fill
      ∧ (cloneRect r).stroke = r.stroke)
    ∧ (∀ (h : VecHeap) (v : ℝ × ℝ),
        readVec (writeVec h ((cloneRect r).transform.position) v)
          r.transform.position = v)
    ∧ (∀ (d : GroupData) (cs : List ShapeR),
        cloneShapeR (.groupS d cs)
          = .groupS ⟨d.id ++ "_clone", d.name ++ " 副本", d.transform, d.opacity⟩
              (cs.map cloneShapeR)) :=
  ⟨⟨rfl, rfl, rfl, rfl, rfl, rfl⟩, ⟨rfl, rfl, rfl⟩,
    fun h v => by simp [readVec, writeVec, cloneRect],
    fun d cs => by simp [cloneShapeR, cloneShapeList_eq_map]⟩

/-- A concrete rectangle whose transform holds position reference `0`. -/
def rectEx : RectData :=
  ⟨"r1", "Rect", ⟨0, 1, 2, 0⟩, ⟨"solid", some 3⟩, none, 1, true, false,
    100, 100, 0⟩

/-- A concrete heap where every vector cell starts at the origin. -/
def heapEx : VecHeap := fun _ => (0, 0)

/-- Counterexample for C10: the clone of `rectEx` shares the original's
position reference, and after writing `(99, 0)` through the clone's
position, reading the **original**'s position yields `(99, 0)` — the
original did not stay unchanged, refuting the claim's by-value-copy
assertion for nested transform fields. -/
theorem C10_counterexample :
    (cloneRect rectEx).transform.position = rectEx.transform.position
    ∧ readVec heapEx rectEx.transform.position = (0, 0)
    ∧ readVec (writeVec heapEx ((cloneRect rectEx).transform.position) (99, 0))
        rectEx.transform.position = (99, 0)
    ∧ ((99, 0) : ℝ × ℝ) ≠ (0, 0) := by
  refine ⟨rfl, rfl, by simp [readVec, writeVec, cloneRect], ?_⟩
  intro hcontra
  have : (99 : ℝ) = 0 := congrArg Prod.fst hcontra
  norm_num at this

-- ========== Project export (`RivExporter`, claim C4) ==========

/-- A JSON document value.  `RivExporter.exportToRiv` builds a plain
object, `JSON.stringify`s it and UTF-8-encodes the string; both of those
steps are injective on the document, so the export is modelled as the
document itself — structure lost before this point is lost in the bytes
too. -/
inductive J where
  | num (x : ℝ)
  | str (s : String)
  | boolJ (b : Bool)
  | nullJ
  | arr (items : List J)
  | objJ (fields : List (String × J))

/-- A field that `JSON.stringify` keeps only when the value is not
`undefined`. -/
def optField (k : String) : Option J → List (String × J)
  | none => []
  | some j => [(k, j)]

/-- A plain `Vector2` value. -/
structure Vec2V where
  x : ℝ
  y : ℝ

/-- A plain `Color` value. -/
structure ColorV where
  r : ℝ
  g : ℝ
  b : ℝ
  a : ℝ

/-- A plain `Transform` value. -/
structure TransformV where
  position : Vec2V
  scale : Vec2V
  rotation : ℝ
  pivot : Vec2V

/-- A plain `Gradient` value (`end` is a Lean keyword, hence `«end»`). -/
structure GradientV where
  gtype : String
  stops : List (ℝ × ColorV)
  start : Option Vec2V
  «end» : Option Vec2V
  center : Option Vec2V
  radius : Option ℝ

/-- A plain `Fill` value. -/
structure FillV where
  ftype : String
  color : Option ColorV
  gradient : Option GradientV

/-- A plain `Stroke` value. -/
structure StrokeV where
  color : ColorV
  width : ℝ
  cap : String
  join : String
  dashArray : Option (List ℝ)

def vecToJ (v : Vec2V) : J := .objJ [("x", .num v.x), ("y", .num v.y)]

def colorToJ (c : ColorV) : J :=
  .objJ [("r", .num c.r), ("g", .num c.g), ("b", .num c.b), ("a", .num c.a)]

def transformToJ (t : TransformV) : J :=
  .objJ [("position", vecToJ t.position), ("scale", vecToJ t.scale),
    ("rotation", .num t.rotation), ("pivot", vecToJ t.pivot)]

def gradientToJ (g : GradientV) : J :=
  .objJ ([("type", .str g.gtype),
    ("stops", .arr (g.stops.map fun sp =>
      J.objJ [("offset", .num sp.1), ("color", colorToJ sp.2)]))]
    ++ optField "start" (g.start.map vecToJ)
    ++ optField "end" (g.«end».map vecToJ)
    ++ optField "center" (g.center.map vecToJ)
    ++ optField "radius" (g.radius.map J.num))

def fillToJ (f : FillV) : J :=
  .objJ ([("type", .str f.ftype)]
    ++ optField "color" (f.color.map colorToJ)
    ++ optField "gradient" (f.gradient.map gradientToJ))

def strokeToJ (s : StrokeV) : J :=
  .objJ ([("color", colorToJ s.color), ("width", .num s.width),
    ("cap", .str s.cap), ("join", .str s.join)]
    ++ optField "dashArray" (s.dashArray.map fun ds => J.arr (ds.map J.num)))

/-- `JSON.stringify` turns the `null` stroke into JSON `null`. -/
def optStrokeToJ : Option StrokeV → J
  | none => .nullJ
  | some s => strokeToJ s

/-- The common fields of every concrete `Shape` instance. -/
structure ShapeBase where
  id : String
  name : String
  transform : TransformV
  fill : FillV
  stroke : Option StrokeV
  opacity : ℝ
  visible : Bool
  locked : Bool

/-- The shape classes the exporter may receive: `Rectangle`, `Ellipse`,
`Path` and `Group` with its owned children. -/
inductive ShapeS where
  | rect (base : ShapeBase) (width height cornerRadius : ℝ)
  | ellipse (base : ShapeBase) (radiusX radiusY : ℝ)
  | path (base : ShapeBase) (pathData : String)
  | group (base : ShapeBase) (children : List ShapeS)

/-- The `base` object literal of `RivExporter.serializeShape`: note that
`locked` (and the parent link) is never serialized. -/
def baseFields (b : ShapeBase) : List (String × J) :=
  [("id", .str b.id), ("name", .str b.name),
    ("transform", transformToJ b.transform), ("opacity", .num b.opacity),
    ("visible", .boolJ b.visible)]

/-- `RivExporter.serializeShape`: the `instanceof` chain handles
`Rectangle`, `Ellipse` and `Path`; a `Group` matches none of the
branches and falls through to `return base` — its `type` discriminator,
fill, stroke and, crucially, its **children** are all dropped. -/
def serializeShape : ShapeS → J
  | .rect base w h cr =>
      .objJ (baseFields base
        ++ [("type", .str "rectangle"), ("width", .num w), ("height", .num h),
          ("cornerRadius", .num cr), ("fill", fillToJ base.fill),
          ("stroke", optStrokeToJ base.stroke)])
  | .ellipse base rx ry =>
      .objJ (baseFields base
        ++ [("type", .str "ellipse"), ("radiusX", .num rx),
          ("radiusY", .num ry), ("fill", fillToJ base.fill),
          ("stroke", optStrokeToJ base.stroke)])
  | .path base pd =>
      .objJ (baseFields base
        ++ [("type", .str "path"), ("pathData", .str pd),
          ("fill", fillToJ base.fill), ("stroke", optStrokeToJ base.stroke)])
  | .group base _children => .objJ (baseFields base)

/-- The exporter's `Artboard` record. -/
structure ArtboardM where
  id : String
  name : String
  width : ℝ
  height : ℝ
  shapes : List ShapeS

/-- `RivExporter.serializeArtboard`. -/
def serializeArtboard (ab : ArtboardM) : J :=
  .objJ [("id", .str ab.id), ("name", .str ab.name),
    ("width", .num ab.width), ("height", .num ab.height),
    ("shapes", .arr (ab.shapes.map serializeShape))]

mutual

/-- `JSON.stringify` of a dynamically typed keyframe value. -/
def jsValToJ : JSVal → J
  | .num n => .num n
  | .str s => .str s
  | .bool b => .boolJ b
  | .obj fields => .objJ (jsFieldsToJ fields)

def jsFieldsToJ : List (String × JSVal) → List (String × J)
  | [] => []
  | (k, v) :: rest => (k, jsValToJ v) :: jsFieldsToJ rest

end

/-- `JSON.stringify` of an `EasingFunction` (a string, or the
`{bezier: [...]}` record). -/
def easingToJ : Easing → J
  | .linear => .str "linear"
  | .easeIn => .str "ease-in"
  | .easeOut => .str "ease-out"
  | .easeInOut => .str "ease-in-out"
  | .bounce => .str "bounce"
  | .elastic => .str "elastic"
  | .bezier p =>
      .objJ [("bezier", .arr [.num p.1, .num p.2.1, .num p.2.2.1, .num p.2.2.2])]

/-- `JSON.stringify` of a keyframe record. -/
def keyframeToJ (kf : KeyframeM) : J :=
  .objJ [("time", .num kf.time), ("value", jsValToJ kf.value),
    ("easing", easingToJ kf.easing)]

/-- `RivExporter.serializeAnimation`: the track `Map` flattens to a list
of `{property, keyframes}` records in insertion order. -/
def serializeAnimation (a : AnimationM) : J :=
  .objJ [("id", .str a.id), ("name", .str a.name),
    ("duration", .num a.duration), ("loop", .str a.loop),
    ("tracks", .arr (a.tracks.map fun pt =>
      J.objJ [("property", .str pt.1),
        ("keyframes", .arr (pt.2.keyframes.map keyframeToJ))]))]

/-- The literal text of a comparison operator. -/
def opToStr : CmpOp → String
  | .eq => "=="
  | .ne => "!="
  | .gt => ">"
  | .lt => "<"
  | .ge => ">="
  | .le => "<="

/-- `JSON.stringify` of a parameter/condition value (parameter numbers
are rationals in the model, hence the cast into the JSON number line). -/
def pvalToJ : PVal → J
  | .b x => .boolJ x
  | .n x => .num (x : ℝ)
  | .s x => .str x
  | .undef => .nullJ

def conditionToJ (c : ConditionM) : J :=
  .objJ [("type", .str c.ctype), ("parameter", .str c.parameter),
    ("operator", .str (opToStr c.operator)), ("value", pvalToJ c.value)]

def triggerToJ (t : TriggerM) : J :=
  .objJ ([("type", .str t.ttype)]
    ++ optField "targetId" (t.targetId.map J.str)
    ++ optField "key" (t.key.map J.str)
    ++ optField "eventName" (t.eventName.map J.str))

def transitionToJ (t : StateTransitionM) : J :=
  .objJ ([("from", .str t.«from»), ("to", .str t.«to»),
    ("conditions", .arr (t.conditions.map conditionToJ)),
    ("triggers", .arr (t.triggers.map triggerToJ))]
    ++ optField "duration" (t.duration.map fun d => J.num (d : ℝ)))

def smStateToJ (s : SMStateM) : J :=
  .objJ ([("id", .str s.id), ("name", .str s.name)]
    ++ optField "animationId" (s.animationId.map J.str)
    ++ [("position", .objJ [("x", .num (s.position.1 : ℝ)),
      ("y", .num (s.position.2 : ℝ))])])

/-- `RivExporter.serializeStateMachine`: states in insertion order
(`Array.from(states.values())`), the transition list, and `entryState`;
the `parameters` map and `currentState` are **not** serialized. -/
def serializeStateMachine (sm : StateMachineM) : J :=
  .objJ [("id", .str sm.id), ("name", .str sm.name),
    ("states", .arr (sm.states.map fun kv => smStateToJ kv.2)),
    ("transitions", .arr (sm.transitions.map transitionToJ)),
    ("entryState", .str sm.entryState)]

/-- The base64 alphabet used by `btoa`. -/
def b64Chars : List Char :=
  "ABCDEFGHIJKLMNOPQRSTUVWXYZabcdefghijklmnopqrstuvwxyz0123456789+/".toList

def b64Char (n : ℕ) : Char := b64Chars.getD n '='

/-- `btoa(String.fromCharCode(...bytes))`: standard base64 with `=`
padding, three bytes per four output characters. -/
def base64Encode : List ℕ → List Char
  | [] => []
  | [a] => [b64Char (a / 4), b64Char (a % 4 * 16), '=', '=']
  | [a, b] =>
      [b64Char (a / 4), b64Char (a % 4 * 16 + b / 16), b64Char (b % 16 * 4), '=']
  | a :: b :: c :: rest =>
      [b64Char (a / 4), b64Char (a % 4 * 16 + b / 16),
        b64Char (b % 16 * 4 + c / 64), b64Char (c % 64)] ++ base64Encode rest

/-- A binary `Asset`: the `ArrayBuffer` is a byte list. -/
structure AssetM where
  id : String
  name : String
  atype : String
  data : List ℕ

/-- `RivExporter.serializeAsset`: the payload as base64 text. -/
def serializeAsset (a : AssetM) : J :=
  .objJ [("id", .str a.id), ("name", .str a.name), ("type", .str a.atype),
    ("data", .str (String.mk (base64Encode a.data)))]

/-- The `RivProject` record handed to the exporter. -/
structure RivProjectM where
  version : String
  artboards : List ArtboardM
  animations : List AnimationM
  stateMachines : List StateMachineM
  assets : List AssetM

/-- `RivExporter.exportToRiv`, up to the injective
`JSON.stringify`/UTF-8 steps: the serialized document. -/
def exportDoc (p : RivProjectM) : J :=
  .objJ [("version", .str p.version),
    ("artboards", .arr (p.artboards.map serializeArtboard)),
    ("animations", .arr (p.animations.map serializeAnimation)),
    ("stateMachines", .arr (p.stateMachines.map serializeStateMachine)),
    ("assets", .arr (p.assets.map serializeAsset))]

/-- Shared common fields for the C4 failing input. -/
def baseEx (id name : String) : ShapeBase :=
  ⟨id, name, ⟨⟨0, 0⟩, ⟨1, 1⟩, 0, ⟨0, 0⟩⟩,
    ⟨"solid", some ⟨128, 128, 128, 1⟩, none⟩, none, 1, true, false⟩

/-- A project whose only artboard holds one group with the given
children — the C4 failing input is this at `[rect]` versus `[]`. -/
def groupProj (cs : List ShapeS) : RivProjectM :=
  ⟨"1.0",
    [⟨"ab1", "Artboard", 400, 300, [.group (baseEx "g1" "Group") cs]⟩],
    [], [], []⟩

/-- CLAIM C4 (code_bug).  `serializeShape` has no `Group` branch, so a
group's children (and type tag) never reach the output: the project
whose group contains a rectangle and the project whose group is empty
export to the **identical** document, although the projects differ.  No
importer — the repository ships none — can tell the two serialized
projects apart, so `importProject(exportProject(p))` cannot be
structurally equal to `p` for both; the round-trip contract is
unsatisfiable as exported. -/
theorem C4_export_drops_group_children :
    exportDoc (groupProj [.rect (baseEx "r1" "Rect") 100 100 0])
      = exportDoc (groupProj [])
    ∧ groupProj [.rect (baseEx "r1" "Rect") 100 100 0] ≠ groupProj [] := by
  constructor
  · rfl
  · intro h
    have h1 : (groupProj [.rect (baseEx "r1" "Rect") 100 100 0]).artboards
        = (groupProj []).artboards := by rw [h]
    simp only [groupProj, List.cons.injEq, and_true] at h1
    have h2 : (⟨"ab1", "Artboard", 400, 300,
        [.group (baseEx "g1" "Group") [.rect (baseEx "r1" "Rect") 100 100 0]]⟩ :
          ArtboardM).shapes
        = (⟨"ab1", "Artboard", 400, 300,
            [.group (baseEx "g1" "Group") []]⟩ : ArtboardM).shapes := by
      rw [h1]
    simp at h2

end RivEditor
